import Mathlib

/-!
Verification of the idle-triggered activity scheduler of the `mm` repository.

The Python sources are shallowly embedded:
* floating-point seconds are modelled as exact rationals (`ℚ`),
* the float angle accumulator of the circular pattern is modelled over `ℝ`
  (it is compared against `2 * math.pi`),
* Python strings are modelled as `List Char` (ASCII fragment relevant here),
* the periodic Qt timer is modelled by invoking the tick function explicitly,
* `random.uniform(a, b)` is modelled by a unit sample `u ∈ [0, 1]` scaled to
  `a + (b - a) * u`, and `random.choice` by an explicit index parameter.
-/

namespace MM

/-! ## Generic helpers for the Python string primitives -/

/-- Structural `dropWhile` over character lists (used to model `str.strip`). -/
def dropWhileP (p : Char → Bool) : List Char → List Char
  | [] => []
  | c :: rest => if p c then dropWhileP p rest else c :: rest

/-- Characters stripped by Python's `str.strip()` (the ASCII whitespace set;
inputs appearing in this development are ASCII). -/
def isPySpace (c : Char) : Bool :=
  c.toNat = 32 || c.toNat = 9 || c.toNat = 10 || c.toNat = 13 || c.toNat = 11 || c.toNat = 12

/-- Python `str.strip()`: remove leading and trailing whitespace. -/
def pyStrip (cs : List Char) : List Char :=
  (dropWhileP isPySpace ((dropWhileP isPySpace cs).reverse)).reverse

/-- Python `str.lower()` on the ASCII fragment. -/
def pyLower (cs : List Char) : List Char := cs.map Char.toLower

/-- Python `str.split(sep)` for a one-character separator: no collapsing of
empty fields, `"".split(sep) = [""]`. -/
def splitOnChar (sep : Char) : List Char → List (List Char)
  | [] => [[]]
  | c :: rest =>
    match splitOnChar sep rest with
    | [] => [[]]
    | h :: t => if c = sep then [] :: h :: t else (c :: h) :: t

/-- Does `pat` occur at the head of the list? (Models `str.startswith`.) -/
def leadsWith : List Char → List Char → Bool
  | [], _ => true
  | _ :: _, [] => false
  | p :: ps, c :: cs => p = c && leadsWith ps cs

/-- Does `pat` occur anywhere as a contiguous run? (Models Python's `in` on strings.) -/
def containsSeq (pat : List Char) : List Char → Bool
  | [] => leadsWith pat []
  | c :: rest => leadsWith pat (c :: rest) || containsSeq pat rest

/-- Accumulating helper for `digitsVal`. -/
def digitsValGo (acc : ℕ) : List Char → Option ℕ
  | [] => some acc
  | '_' :: d :: rest => if d.isDigit then digitsValGo (acc * 10 + (d.toNat - 48)) rest else none
  | d :: rest => if d.isDigit then digitsValGo (acc * 10 + (d.toNat - 48)) rest else none

/-- Digit run with optional single underscores between digits, as accepted by
Python's `int()`. Returns the value, or `none` on malformed input. -/
def digitsVal : List Char → Option ℕ
  | [] => none
  | c :: rest => if c.isDigit then digitsValGo (c.toNat - 48) rest else none

/-- Python `int(s)`: strip whitespace, optional sign, digit run.
`none` models the `ValueError` raised on malformed input. -/
def pyParseInt : List Char → Option ℤ :=
  fun cs =>
    match pyStrip cs with
    | '+' :: rest => (digitsVal rest).map (fun n => (n : ℤ))
    | '-' :: rest => (digitsVal rest).map (fun n => -(n : ℤ))
    | rest => (digitsVal rest).map (fun n => (n : ℤ))

/-- Python `int(float)` style truncation toward zero, for exact rationals. -/
def pyTrunc (q : ℚ) : ℤ := if 0 ≤ q then ⌊q⌋ else ⌈q⌉

/-! ## Configuration provider (`config.py`, class `ConfigManager`) -/

/-- A JSON-style configuration value (the fragment used by this program). -/
inductive ConfigValue where
  | int (n : ℤ)
  | bool (b : Bool)
  | str (s : String)
deriving DecidableEq

/-- `ConfigManager._load_default_config` (config.py lines 33–47). -/
def loadDefaultConfig : List (String × ConfigValue) :=
  [("idle_threshold", .int 300),
   ("move_interval", .int 30),
   ("move_distance", .int 5),
   ("scroll_enabled", .bool true),
   ("scroll_amount", .int 3),
   ("enabled", .bool false),
   ("minimize_to_tray", .bool true),
   ("start_minimized", .bool false),
   ("mouse_move_enabled", .bool true),
   ("movement_pattern", .str "random"),
   ("check_interval", .int 5)]

/-- `ConfigManager.set` (config.py lines 77–80): `self._config[key] = value`,
a plain dictionary store with no validation (persistence side effect omitted). -/
def configSet : List (String × ConfigValue) → String → ConfigValue → List (String × ConfigValue)
  | [], k, v => [(k, v)]
  | (k', v') :: rest, k, v =>
    if k' = k then (k, v) :: rest else (k', v') :: configSet rest k v

/-- `ConfigManager.get` (config.py lines 73–75): `self._config.get(key, default)`. -/
def configGet (c : List (String × ConfigValue)) (k : String) (d : ConfigValue) : ConfigValue :=
  (c.lookup k).getD d

/-- The SchedulerState configuration invariant claimed by the spec:
every value the scheduler reads satisfies `check_interval ≥ 1`,
`idle_threshold ∈ [3, 18000]`, `move_interval ∈ [5, 300]`.
The reads use the defaults the scheduler passes (mouse_controller.py 95–96, 69). -/
def schedulerReadsOk (c : List (String × ConfigValue)) : Prop :=
  (∃ n : ℤ, configGet c "check_interval" (.int 5) = .int n ∧ 1 ≤ n) ∧
  (∃ n : ℤ, configGet c "idle_threshold" (.int 300) = .int n ∧ 3 ≤ n ∧ n ≤ 18000) ∧
  (∃ n : ℤ, configGet c "move_interval" (.int 30) = .int n ∧ 5 ≤ n ∧ n ≤ 300)

/-! ## Activity scheduler (`mouse_controller.py`, class `MouseController`) -/

/-- One injected-input step of the activity sequence. -/
inductive Action where
  | mouseMove
  | scroll
  | keyPress
deriving DecidableEq

/-- The scheduler's mutable state relevant to ticking:
`_is_enabled`, `_last_move_time`, and the idle sensor's fallback baseline
`IdleDetector._last_activity_time` (reset via `reset_idle_time`). -/
structure SchedulerState where
  isEnabled : Bool
  lastMoveTime : ℚ
  idleBaseline : ℚ
deriving DecidableEq

/-- `MouseController._perform_activity` (mouse_controller.py lines 117–144):
if mouse movement, scroll and keyboard macros are all disabled, return with no
injected input; otherwise run the enabled steps in fixed order. The returned
list records the injected-input steps. -/
def performActivity (mouseEnabled scrollEnabled keyboardEnabled : Bool) : List Action :=
  if !mouseEnabled && !scrollEnabled && !keyboardEnabled then []
  else
    (if mouseEnabled then [Action.mouseMove] else []) ++
    (if scrollEnabled then [Action.scroll] else []) ++
    (if keyboardEnabled then [Action.keyPress] else [])

/-- Result of one tick: the successor state, the injected-input steps, and
whether `_perform_activity` was invoked. -/
structure TickResult where
  state : SchedulerState
  actions : List Action
  performed : Bool
deriving DecidableEq

/-- `MouseController._check_idle_and_act` (mouse_controller.py lines 88–115).
`idleTime` is the fresh `IdleDetector.get_idle_time()` sample, `now` the tick's
`time.time()`; `idleThreshold` and `moveInterval` are the configuration reads;
the three Booleans are the step-enabled flags read by `_perform_activity`. -/
def checkIdleAndAct (s : SchedulerState) (idleTime idleThreshold moveInterval now : ℚ)
    (mouseEnabled scrollEnabled keyboardEnabled : Bool) : TickResult :=
  if s.isEnabled = false then ⟨s, [], false⟩
  else if idleThreshold ≤ idleTime ∧ moveInterval ≤ now - s.lastMoveTime then
    ⟨{ s with lastMoveTime := now, idleBaseline := now },
     performActivity mouseEnabled scrollEnabled keyboardEnabled, true⟩
  else ⟨s, [], false⟩

/-- `MouseController.force_activity` (mouse_controller.py lines 255–260):
only when `_is_enabled`, perform the activity sequence, set `_last_move_time`
to now and reset the idle baseline. -/
def forceActivity (s : SchedulerState) (now : ℚ)
    (mouseEnabled scrollEnabled keyboardEnabled : Bool) : SchedulerState × List Action :=
  if s.isEnabled = true then
    ({ s with lastMoveTime := now, idleBaseline := now },
     performActivity mouseEnabled scrollEnabled keyboardEnabled)
  else (s, [])

/-! ## Movement patterns (`mouse_controller.py` lines 218–253) -/

/-- `MouseController._get_random_position` (lines 218–226).
`angle = random.uniform(0, 2π)` enters only through `c = cos angle` and
`s = sin angle`; `actual_distance = random.uniform(1, distance)` is modelled by
its unit sample `u ∈ [0,1]` as `1 + (distance - 1) * u`; the offsets pass
through Python's `int()`, truncation toward zero. -/
def getRandomPosition (x y distance : ℤ) (u c s : ℚ) : ℤ × ℤ :=
  let actualDistance : ℚ := 1 + ((distance : ℚ) - 1) * u
  (x + pyTrunc (actualDistance * c), y + pyTrunc (actualDistance * s))

/-- Modelled from the claim's wording, for comparison with `getRandomPosition`:
magnitude uniform over `(0, d]` (unit sample `v ∈ (0,1]` scaled to `d * v`) and
offsets formed with `round`. -/
def claimedRandomPosition (x y distance : ℤ) (v c s : ℚ) : ℤ × ℤ :=
  let mag : ℚ := (distance : ℚ) * v
  (x + round (mag * c), y + round (mag * s))

/-- `MouseController._get_circular_position` (lines 228–237), the angle
accumulator only: add 0.2, and reset to 0 once `2π` is reached. -/
noncomputable def circStep (a : ℝ) : ℝ :=
  if 2 * Real.pi ≤ a + 0.2 then 0 else a + 0.2

/-- The angle accumulator after `n` invocations; `_movement_angle` starts at 0
(mouse_controller.py line 49). -/
noncomputable def circAngle : ℕ → ℝ
  | 0 => 0
  | n + 1 => circStep (circAngle n)

/-- `MouseController._get_linear_position` (lines 239–253): given the persistent
direction sign, return the new sign and the tentative x (y is unchanged).
If the tentative x reaches the 10-pixel margin of either screen edge the sign
flips and the offset is recomputed from the flipped sign. -/
def getLinearPosition (direction x distance screenWidth : ℤ) : ℤ × ℤ :=
  let nx := x + distance * direction
  if nx ≤ 10 ∨ screenWidth - 10 ≤ nx then
    (-direction, x + distance * (-direction))
  else (direction, nx)

/-! ## Macro registry (`keyboard_macro.py`, class `KeyboardMacroManager`) -/

/-- The `key_mappings` dictionary of `_map_key_name`
(keyboard_macro.py lines 269–325), as an association list in source order.
The apostrophe and backtick values are written via their code points. -/
def keyMappings : List (List Char × List Char) :=
  [("cmd".toList, "command".toList),
   ("command".toList, "command".toList),
   ("win".toList, "winleft".toList),
   ("windows".toList, "winleft".toList),
   ("winleft".toList, "winleft".toList),
   ("winright".toList, "winright".toList),
   ("ctrl".toList, "ctrl".toList),
   ("control".toList, "ctrl".toList),
   ("alt".toList, "alt".toList),
   ("option".toList, "alt".toList),
   ("shift".toList, "shift".toList),
   ("up".toList, "up".toList),
   ("down".toList, "down".toList),
   ("left".toList, "left".toList),
   ("right".toList, "right".toList),
   ("f1".toList, "f1".toList), ("f2".toList, "f2".toList),
   ("f3".toList, "f3".toList), ("f4".toList, "f4".toList),
   ("f5".toList, "f5".toList), ("f6".toList, "f6".toList),
   ("f7".toList, "f7".toList), ("f8".toList, "f8".toList),
   ("f9".toList, "f9".toList), ("f10".toList, "f10".toList),
   ("f11".toList, "f11".toList), ("f12".toList, "f12".toList),
   ("space".toList, "space".toList),
   ("enter".toList, "enter".toList),
   ("return".toList, "enter".toList),
   ("tab".toList, "tab".toList),
   ("escape".toList, "esc".toList),
   ("esc".toList, "esc".toList),
   ("backspace".toList, "backspace".toList),
   ("delete".toList, "delete".toList),
   ("home".toList, "home".toList),
   ("end".toList, "end".toList),
   ("pageup".toList, "pageup".toList),
   ("pagedown".toList, "pagedown".toList),
   ("insert".toList, "insert".toList),
   ("comma".toList, [',']),
   ("period".toList, ['.']),
   ("slash".toList, ['/']),
   ("backslash".toList, ['\\']),
   ("semicolon".toList, [';']),
   ("quote".toList, [Char.ofNat 39]),
   ("bracket_left".toList, ['[']),
   ("bracket_right".toList, [']']),
   ("minus".toList, ['-']),
   ("equal".toList, ['=']),
   ("backtick".toList, [Char.ofNat 96])]

/-- `KeyboardMacroManager._map_key_name` (lines 264–328): strip, lowercase,
then look the key up in `keyMappings`, returning the key itself when unmapped. -/
def mapKeyName (key : List Char) : List Char :=
  let key := pyLower (pyStrip key)
  (keyMappings.lookup key).getD key

/-- The `valid_modifiers` list of `validate_key_combination` (line 347). -/
def validModifiers : List (List Char) :=
  ["ctrl".toList, "control".toList, "alt".toList, "option".toList, "shift".toList,
   "cmd".toList, "command".toList, "win".toList, "windows".toList,
   "winleft".toList, "winright".toList]

/-- The `valid_function_keys` list, `[f'f{i}' for i in range(1, 13)]` (line 348). -/
def validFunctionKeys : List (List Char) :=
  ["f1".toList, "f2".toList, "f3".toList, "f4".toList, "f5".toList, "f6".toList,
   "f7".toList, "f8".toList, "f9".toList, "f10".toList, "f11".toList, "f12".toList]

/-- The `valid_special_keys` list (lines 349–355). -/
def validSpecialKeys : List (List Char) :=
  ["space".toList, "enter".toList, "return".toList, "tab".toList, "escape".toList,
   "esc".toList, "backspace".toList, "delete".toList, "home".toList, "end".toList,
   "pageup".toList, "pagedown".toList, "insert".toList,
   "up".toList, "down".toList, "left".toList, "right".toList,
   "comma".toList, "period".toList, "slash".toList, "backslash".toList,
   "semicolon".toList, "quote".toList, "bracket_left".toList, "bracket_right".toList,
   "minus".toList, "equal".toList, "backtick".toList]

/-- The punctuation characters accepted for single-character keys (line 360);
backtick, braces, apostrophe and backslash are written via their code points. -/
def punctChars : List Char :=
  [Char.ofNat 96, '~', '!', '@', '#', '$', '%', '^', '&', '*', '(', ')', '_', '+',
   '-', '=', '[', ']', Char.ofNat 123, Char.ofNat 125, '|', ';', ':',
   Char.ofNat 39, '"', ',', '.', '<', '>', '?', '/', Char.ofNat 92]

/-- The single-character test of the loop body (line 360):
`len(key) == 1 and (key.isalnum() or key in punct)`. -/
def singleCharValid (key : List Char) : Bool :=
  match key with
  | [c] => c.isAlphanum || punctChars.contains c
  | _ => false

/-- One iteration of the validation loop of `validate_key_combination`
(lines 358–368), for an already stripped and lowercased component: `true`
means the loop continues, `false` means `return False`. -/
def componentValid (key : List Char) : Bool :=
  if singleCharValid key then true
  else if !(validModifiers.contains key) && !(validFunctionKeys.contains key)
          && !(validSpecialKeys.contains key) then
    !(mapKeyName key == key)
  else true

/-- The plain-name list of the single-key branch (lines 378–380); note it has
no modifiers, no `return`, and no punctuation aliases. -/
def singleKeyNames : List (List Char) :=
  ["space".toList, "enter".toList, "tab".toList, "escape".toList, "esc".toList,
   "backspace".toList, "delete".toList, "home".toList, "end".toList,
   "pageup".toList, "pagedown".toList, "insert".toList,
   "up".toList, "down".toList, "left".toList, "right".toList]

/-- `KeyboardMacroManager.validate_key_combination` (lines 339–386). -/
def validateKeyCombination (kc : List Char) : Bool :=
  if kc.contains '+' then
    ((splitOnChar '+' kc).map (fun k => pyLower (pyStrip k))).all componentValid
  else
    let key := pyLower (pyStrip kc)
    if key.length = 1 then true
    else if mapKeyName key == key && !(singleKeyNames.contains key)
            && !(leadsWith ['f'] key) then false
    else true

/-- Modelled from the claim's wording, for comparison with
`validateKeyCombination`: a component is recognized when it is a single
alphanumeric or punctuation character, a recognized modifier name, a function
key `f1`..`f12`, or a recognized named key. -/
def claimedComponentOk (raw : List Char) : Bool :=
  let k := pyLower (pyStrip raw)
  singleCharValid k || validModifiers.contains k || validFunctionKeys.contains k
    || validSpecialKeys.contains k

/-- The `KeyboardMacro` record of keyboard_macro.py lines 16–24 (named
`KbShortcut` here because the source's name cannot be used verbatim). -/
structure KbShortcut where
  name : String
  keys : List String
  delay : ℚ
  description : String
  enabled : Bool

/-- `KeyboardMacroManager.execute_macro` (lines 207–234): `false` if the record
is disabled; with several keys, `random.choice` picks one (modelled by the
index `choice` reduced mod the length); with at most one key,
`macro.keys[0] if macro.keys else ""`; an empty selection returns `false`
before any injection. The second component is the injected token, if any. -/
def executeShortcut (m : KbShortcut) (choice : ℕ) : Bool × Option String :=
  if m.enabled = false then (false, none)
  else
    let keyToPress : String :=
      if 1 < m.keys.length then (m.keys.get? (choice % m.keys.length)).getD ""
      else (m.keys.get? 0).getD ""
    if keyToPress = "" then (false, none)
    else (true, some keyToPress)

/-! ## Idle sensor (`idle_detector.py`, class `IdleDetector`) -/

/-- Outcome of one `subprocess.run` call: a completed process (return code and
standard output), a `TimeoutExpired`, a `CalledProcessError`, or an `OSError`
such as `FileNotFoundError` when the probed executable does not exist. -/
inductive ProbeResult where
  | ok (returncode : ℤ) (stdout : List Char)
  | timeoutExpired
  | processError
  | osError
deriving DecidableEq

/-- The pattern `'HIDIdleTime'` searched for in each output line. -/
def hidPat : List Char := "HIDIdleTime".toList

/-- The parsing body of `get_idle_time` (idle_detector.py lines 30–38):
split stdout into lines, take the first containing `HIDIdleTime`, split it on
`=` and parse field 1 as an integer. `none`: no such line (falls through to
the in-`try` fallback); `some (.error ())`: `IndexError`/`ValueError` (caught
by the `except` clause); `some (.ok n)`: the nanosecond value. -/
def extractIdleNs (stdout : List Char) : Option (Except Unit ℤ) :=
  match (splitOnChar (Char.ofNat 10) stdout).find? (fun l => containsSeq hidPat l) with
  | none => none
  | some line =>
    match (splitOnChar '=' line).get? 1 with
    | none => some (.error ())
    | some part =>
      match pyParseInt (pyStrip part) with
      | none => some (.error ())
      | some n => some (.ok n)

/-- The `except` branch of `get_idle_time` (lines 43–59): run
`system_profiler`; a completed process or a caught timeout/process error ends
in `time.time() - self._last_activity_time`; an `OSError` is not in the
`except` tuple and propagates. -/
def idleFallback (secondary : ProbeResult) (now lastActivity : ℚ) : Except Unit ℚ :=
  match secondary with
  | .osError => .error ()
  | _ => .ok (now - lastActivity)

/-- `IdleDetector.get_idle_time` (idle_detector.py lines 18–59). `primary` is
the outcome of the `ioreg` probe, `secondary` of the `system_profiler` probe;
`lastActivity` is `self._last_activity_time` (construction time, or the last
`reset_idle_time`). `Except.error` models an exception escaping to the caller. -/
def getIdleTime (primary secondary : ProbeResult) (now lastActivity : ℚ) : Except Unit ℚ :=
  match primary with
  | .ok rc out =>
    if rc = 0 then
      match extractIdleNs out with
      | some (.ok n) => .ok ((n : ℚ) / 1000000000)
      | some (.error _) => idleFallback secondary now lastActivity
      | none => .ok (now - lastActivity)
    else .ok (now - lastActivity)
  | .timeoutExpired => idleFallback secondary now lastActivity
  | .processError => idleFallback secondary now lastActivity
  | .osError => .error ()

/-! ## Helper lemmas -/

/-- A successful association-list lookup locates an entry of the list. -/
theorem lookup_mem_pair {α β : Type} [BEq α] [LawfulBEq α] (l : List (α × β)) (k : α) (v : β)
    (h : l.lookup k = some v) : (k, v) ∈ l := by
  induction l with
  | nil => simp [List.lookup] at h
  | cons p t ih =>
    obtain ⟨a, b⟩ := p
    rw [List.lookup] at h
    split at h
    · next heq =>
      injection h with h2
      subst h2
      have hk : k = a := eq_of_beq heq
      subst hk
      exact List.mem_cons_self _ _
    · exact List.mem_cons_of_mem _ (ih h)

/-- Updating one configuration key leaves every other key's read unchanged. -/
theorem configGet_configSet_ne (c : List (String × ConfigValue)) (k k' : String)
    (v d : ConfigValue) (h : k ≠ k') :
    configGet (configSet c k v) k' d = configGet c k' d := by
  induction c with
  | nil =>
    have : (k' == k) = false := beq_eq_false_iff_ne.mpr (Ne.symm h)
    simp [configSet, configGet, List.lookup, this]
  | cons p rest ih =>
    obtain ⟨pk, pv⟩ := p
    by_cases hp : pk = k
    · subst hp
      have : (k' == pk) = false := beq_eq_false_iff_ne.mpr (Ne.symm h)
      simp [configSet, configGet, List.lookup, this]
    · rw [configSet, if_neg hp]
      by_cases hk' : k' = pk
      · subst hk'
        simp [configGet, List.lookup]
      · have : (k' == pk) = false := beq_eq_false_iff_ne.mpr hk'
        simpa [configGet, List.lookup, this] using ih

/-! ## Claims about the scheduler tick (`_check_idle_and_act`) -/

/-- Claim C1: on every tick of the running scheduler, the activity sequence is
invoked, `lastActionTime` becomes the tick's `now` and the idle baseline is
reset exactly when `idleThreshold ≤ idleTime` and
`moveInterval ≤ now - lastActionTime`; and whenever `idleTime < idleThreshold`
the activity sequence is not invoked and the state is unchanged. -/
theorem tick_acts_iff_due (s : SchedulerState) (idleTime idleThreshold moveInterval now : ℚ)
    (me se ke : Bool) (h : s.isEnabled = true) :
    (((checkIdleAndAct s idleTime idleThreshold moveInterval now me se ke).performed = true ∧
      (checkIdleAndAct s idleTime idleThreshold moveInterval now me se ke).state.lastMoveTime = now ∧
      (checkIdleAndAct s idleTime idleThreshold moveInterval now me se ke).state.idleBaseline = now)
      ↔ (idleThreshold ≤ idleTime ∧ moveInterval ≤ now - s.lastMoveTime)) ∧
    (idleTime < idleThreshold →
      (checkIdleAndAct s idleTime idleThreshold moveInterval now me se ke).performed = false ∧
      (checkIdleAndAct s idleTime idleThreshold moveInterval now me se ke).state = s) := by
  have hne : ¬ (s.isEnabled = false) := by simp [h]
  rw [checkIdleAndAct, if_neg hne]
  by_cases hdue : idleThreshold ≤ idleTime ∧ moveInterval ≤ now - s.lastMoveTime
  · rw [if_pos hdue]
    refine ⟨⟨fun _ => hdue, fun _ => ⟨rfl, rfl, rfl⟩⟩, fun hlt => absurd hdue.1 (not_le.mpr hlt)⟩
  · rw [if_neg hdue]
    refine ⟨⟨fun hc => absurd hc.1 (by simp), fun hd => absurd hd hdue⟩,
      fun _ => ⟨rfl, rfl⟩⟩

/-- Witness for C1 at a concrete due tick. -/
theorem tick_acts_iff_due_witness :
    (checkIdleAndAct ⟨true, 0, 0⟩ 400 300 30 50 true true true).performed = true :=
  ((tick_acts_iff_due ⟨true, 0, 0⟩ 400 300 30 50 true true true rfl).1.mpr
    ⟨by norm_num, by norm_num⟩).1

/-- Claim C5: with mouse movement, scroll and keyboard macros all disabled, a
due tick injects no input yet still counts as performed: `lastActionTime`
still becomes `now`, so a follow-up tick within `moveInterval` is not due. -/
theorem disabled_sequence_rate_limited (s : SchedulerState)
    (idleTime idleThreshold moveInterval now idleTime2 now2 : ℚ)
    (h : s.isEnabled = true)
    (hidle : idleThreshold ≤ idleTime) (hmove : moveInterval ≤ now - s.lastMoveTime)
    (hsoon : now2 - now < moveInterval) :
    (checkIdleAndAct s idleTime idleThreshold moveInterval now false false false).actions = [] ∧
    (checkIdleAndAct s idleTime idleThreshold moveInterval now false false false).performed = true ∧
    (checkIdleAndAct s idleTime idleThreshold moveInterval now false false false).state.lastMoveTime
      = now ∧
    (checkIdleAndAct
      ((checkIdleAndAct s idleTime idleThreshold moveInterval now false false false).state)
      idleTime2 idleThreshold moveInterval now2 false false false).performed = false := by
  have hne : ¬ (s.isEnabled = false) := by simp [h]
  rw [checkIdleAndAct, if_neg hne, if_pos ⟨hidle, hmove⟩]
  refine ⟨rfl, rfl, rfl, ?_⟩
  rw [checkIdleAndAct]
  simp only [h]
  rw [if_neg (by simp)]
  have hnotdue : ¬ (idleThreshold ≤ idleTime2 ∧ moveInterval ≤ now2 - now) :=
    fun hc => absurd hc.2 (not_le.mpr (by linarith))
  rw [if_neg hnotdue]

/-- Witness for C5 at concrete values. -/
theorem disabled_sequence_rate_limited_witness :
    (checkIdleAndAct ⟨true, 0, 0⟩ 400 300 30 50 false false false).actions = [] ∧
    (checkIdleAndAct ⟨true, 0, 0⟩ 400 300 30 50 false false false).performed = true ∧
    (checkIdleAndAct ⟨true, 0, 0⟩ 400 300 30 50 false false false).state.lastMoveTime = 50 ∧
    (checkIdleAndAct ((checkIdleAndAct ⟨true, 0, 0⟩ 400 300 30 50 false false false).state)
      400 300 30 60 false false false).performed = false :=
  disabled_sequence_rate_limited ⟨true, 0, 0⟩ 400 300 30 50 400 60 rfl
    (by norm_num) (by norm_num) (by norm_num)

/-- Claim C9: when the scheduler is stopped, `force_activity` performs no
activity sequence and leaves the whole scheduler state unchanged. -/
theorem force_activity_stopped_noop (s : SchedulerState) (now : ℚ) (me se ke : Bool)
    (h : s.isEnabled = false) :
    forceActivity s now me se ke = (s, []) := by
  rw [forceActivity, if_neg (by simp [h])]

/-- Witness for C9 at a concrete stopped state. -/
theorem force_activity_stopped_noop_witness :
    forceActivity ⟨false, 7, 3⟩ 100 true true true = (⟨false, 7, 3⟩, []) :=
  force_activity_stopped_noop ⟨false, 7, 3⟩ 100 true true true rfl

/-! ## Claim about the linear movement pattern -/

/-- Claim C8: whenever the tentative destination x falls within the 10-pixel
margin of either screen edge, the direction sign flips and the offset is
recomputed from the flipped sign; in particular at
`current_x = screenWidth - 11`, `distance = 5`, moving right, the direction
flips and the applied offset is negative. -/
theorem linear_margin_flip (direction x distance screenWidth : ℤ)
    (h : x + distance * direction ≤ 10 ∨ screenWidth - 10 ≤ x + distance * direction) :
    getLinearPosition direction x distance screenWidth
      = (-direction, x - distance * direction) ∧
    getLinearPosition 1 (screenWidth - 11) 5 screenWidth = (-1, screenWidth - 16) ∧
    (screenWidth - 16) - (screenWidth - 11) < 0 := by
  refine ⟨?_, ?_, by omega⟩
  · rw [getLinearPosition, if_pos h]
    exact Prod.ext rfl (by ring)
  · rw [getLinearPosition, if_pos (Or.inr (by omega))]
    exact Prod.ext rfl (by ring)

/-- Witness for C8 on a 100-pixel-wide screen just left of the right margin. -/
theorem linear_margin_flip_witness :
    getLinearPosition 1 89 5 100 = (-1, 84) := by
  have h := (linear_margin_flip 1 89 5 100 (Or.inr (by norm_num))).1
  norm_num at h
  exact h

/-! ## Claim about `execute_macro` on an empty key list -/

/-- Claim C10: executing an individually enabled record whose key list is
empty returns `false` without raising and injects nothing; the single-key
index access is guarded, so the empty-list case takes the error branch. -/
theorem execute_empty_keys_safe (m : KbShortcut) (choice : ℕ)
    (hen : m.enabled = true) (hkeys : m.keys = []) :
    executeShortcut m choice = (false, none) := by
  rw [executeShortcut, if_neg (by simp [hen])]
  simp [hkeys]

/-- Witness for C10 on a concrete enabled, key-less record. -/
theorem execute_empty_keys_safe_witness :
    executeShortcut ⟨"Empty", [], 1/10, "", true⟩ 5 = (false, none) :=
  execute_empty_keys_safe ⟨"Empty", [], 1/10, "", true⟩ 5 rfl rfl

/-! ## Claims about the configuration invariant -/

/-- Counterexample to claim C6: `ConfigManager.set` stores `check_interval = 0`
without validation, and the scheduler's read then returns 0, violating
`checkIntervalSeconds ≥ 1`. -/
theorem config_set_breaks_invariant :
    configGet (configSet loadDefaultConfig "check_interval" (.int 0)) "check_interval" (.int 5)
      = .int 0 ∧ ¬ (1 ≤ (0 : ℤ)) :=
  ⟨by decide, by decide⟩

/-- Claim C6 as amended: the default configuration satisfies the invariant,
and setting any key other than the three scheduler keys preserves it; `set`
itself performs no range validation (see the counterexample). -/
theorem config_defaults_satisfy_invariant :
    schedulerReadsOk loadDefaultConfig ∧
    (∀ k v, k ≠ "check_interval" → k ≠ "idle_threshold" → k ≠ "move_interval" →
      schedulerReadsOk (configSet loadDefaultConfig k v)) := by
  constructor
  · exact ⟨⟨5, by decide, by decide⟩, ⟨300, by decide, by decide, by decide⟩,
      ⟨30, by decide, by decide, by decide⟩⟩
  · intro k v h1 h2 h3
    refine ⟨⟨5, ?_, by decide⟩, ⟨300, ?_, by decide, by decide⟩, ⟨30, ?_, by decide, by decide⟩⟩
    · rw [configGet_configSet_ne _ _ _ _ _ h1]; decide
    · rw [configGet_configSet_ne _ _ _ _ _ h2]; decide
    · rw [configGet_configSet_ne _ _ _ _ _ h3]; decide

/-- Witness for C6 (amended): setting an unrelated key preserves the reads. -/
theorem config_defaults_satisfy_invariant_witness :
    schedulerReadsOk (configSet loadDefaultConfig "scroll_amount" (.int 999)) :=
  config_defaults_satisfy_invariant.2 "scroll_amount" (.int 999)
    (by decide) (by decide) (by decide)

/-! ## Claims about the circular movement pattern -/

/-- Before the wrap is reached, the accumulator after `k` invocations is
`0.2 * k`; the first 31 invocations stay strictly below `2π`. -/
theorem circAngle_le31 : ∀ k : ℕ, k ≤ 31 → circAngle k = 0.2 * k := by
  intro k
  induction k with
  | zero => intro _; simp [circAngle]
  | succ n ih =>
    intro hk
    have hn : n ≤ 31 := by omega
    rw [circAngle, ih hn, circStep]
    have hpi : (3.141592 : ℝ) < Real.pi := Real.pi_gt_d6
    have hcast : (n : ℝ) ≤ 30 := by exact_mod_cast (by omega : n ≤ 30)
    rw [if_neg (not_le.mpr (by linarith))]
    push_cast
    ring

/-- Counterexample to claim C7: `round(2π / 0.2) = 31`, and after 31
invocations the accumulator is `6.2`, not its starting value `0`; the true
period is 32 invocations. -/
theorem circular_round_not_period :
    round (2 * Real.pi / 0.2) = 31 ∧ circAngle 31 ≠ 0 := by
  constructor
  · have h1 : (3.141592 : ℝ) < Real.pi := Real.pi_gt_d6
    have h2 : Real.pi < 3.15 := Real.pi_lt_d2
    have hq : 2 * Real.pi / 0.2 = 10 * Real.pi := by ring
    rw [round_eq, hq]
    refine Int.floor_eq_iff.mpr ⟨?_, ?_⟩ <;> push_cast <;> linarith
  · rw [circAngle_le31 31 le_rfl]
    norm_num

/-- Claim C7 as amended: the accumulator starts at 0, advances by 0.2 per
invocation while below `2π`, and returns to 0 after `⌈2π/0.2⌉ = 32`
invocations (not `round(2π/0.2) = 31`). -/
theorem circular_wraps_at_32 :
    (∀ k : ℕ, k ≤ 31 → circAngle k = 0.2 * k) ∧ circAngle 32 = 0 := by
  refine ⟨circAngle_le31, ?_⟩
  have hstep : circAngle 32 = circStep (circAngle 31) := rfl
  have h2 : Real.pi < 3.15 := Real.pi_lt_d2
  rw [hstep, circAngle_le31 31 le_rfl, circStep, if_pos (by norm_num; linarith)]

/-- Witness for C7 (amended) at the seventh invocation. -/
theorem circular_wraps_at_32_witness : circAngle 7 = 0.2 * 7 := by
  have h := circular_wraps_at_32.1 7 (by norm_num)
  exact_mod_cast h

/-! ## Claims about the random movement pattern -/

/-- Counterexample to claim C4: at `(0,0)` with `distance = 5` and sampled
magnitude `1.9` (unit sample `u = 9/40` for `random.uniform(1, 5)`; the
claim's `(0, d]` sampling reaches the same magnitude at `v = 19/50`) and
angle 0, the code truncates to offset 1 while the claimed `round` gives 2;
moreover the code can never produce a magnitude below 1. -/
theorem random_position_not_claim :
    getRandomPosition 0 0 5 (9/40) 1 0 = (1, 0) ∧
    claimedRandomPosition 0 0 5 (19/50) 1 0 = (2, 0) ∧
    ((1 : ℤ), (0 : ℤ)) ≠ ((2 : ℤ), (0 : ℤ)) := by
  have t1 : pyTrunc ((19 : ℚ)/10) = 1 := by
    rw [pyTrunc, if_pos (by norm_num)]
    exact Int.floor_eq_iff.mpr ⟨by norm_num, by norm_num⟩
  have t0 : pyTrunc (0 : ℚ) = 0 := by
    rw [pyTrunc, if_pos le_rfl]
    exact Int.floor_zero
  have r1 : round ((19 : ℚ)/10) = 2 := by
    rw [round_eq]
    exact Int.floor_eq_iff.mpr ⟨by norm_num, by norm_num⟩
  refine ⟨?_, ?_, by decide⟩
  · simp only [getRandomPosition]
    norm_num [t1, t0]
  · simp only [claimedRandomPosition]
    norm_num [r1]

/-- Claim C4 as amended: the magnitude is `random.uniform(1, d)`, hence lies
in `[1, d]` (not `(0, d]`), and the destination offsets are the Python `int`
truncations (toward zero) of `mag·cosθ` and `mag·sinθ`, not their roundings. -/
theorem random_position_range_trunc (x y distance : ℤ) (u c s : ℚ)
    (hu0 : 0 ≤ u) (hu1 : u ≤ 1) (hd : 1 ≤ distance) :
    1 ≤ 1 + ((distance : ℚ) - 1) * u ∧
    1 + ((distance : ℚ) - 1) * u ≤ (distance : ℚ) ∧
    getRandomPosition x y distance u c s
      = (x + pyTrunc ((1 + ((distance : ℚ) - 1) * u) * c),
         y + pyTrunc ((1 + ((distance : ℚ) - 1) * u) * s)) := by
  have hd' : (1 : ℚ) ≤ (distance : ℚ) := by exact_mod_cast hd
  refine ⟨by nlinarith, by nlinarith, rfl⟩

/-- Witness for C4 (amended) at concrete samples. -/
theorem random_position_range_trunc_witness :
    1 ≤ 1 + ((5 : ℚ) - 1) * (1/2) ∧
    1 + ((5 : ℚ) - 1) * (1/2) ≤ (5 : ℚ) ∧
    getRandomPosition 0 0 5 (1/2) 1 0
      = (0 + pyTrunc ((1 + ((5 : ℚ) - 1) * (1/2)) * 1),
         0 + pyTrunc ((1 + ((5 : ℚ) - 1) * (1/2)) * 0)) :=
  random_position_range_trunc 0 0 5 (1/2) 1 0 (by norm_num) (by norm_num) (by norm_num)

/-! ## Claims about the idle sensor -/

/-- Counterexample to claim C2: an `OSError` from the primary probe (e.g. the
`ioreg` executable missing) is not in the `except` tuple and escapes to the
caller; and a parsable probe output reporting a negative counter is returned
as a negative idle time. -/
theorem idle_time_raises_or_negative :
    getIdleTime .osError .timeoutExpired 10 3 = .error () ∧
    getIdleTime (.ok 0 ("\"HIDIdleTime\" = -5".toList)) .timeoutExpired 10 3
      = .ok (((-5 : ℤ) : ℚ) / 1000000000) ∧
    (((-5 : ℤ) : ℚ) / 1000000000) < 0 := by
  refine ⟨rfl, rfl, by norm_num⟩

/-- Claim C2 as amended: when neither probe outcome is an uncaught `OSError`,
`get_idle_time` always returns a value — degrading to the fallback
`now - lastActivity` on probe failure, timeout or unparsable output — and the
value is non-negative provided any parsed counter is non-negative and the
clock has not run backwards past the baseline. -/
theorem idle_time_no_raise_nonneg (p q : ProbeResult) (now last : ℚ)
    (hp : p ≠ .osError) (hq : q ≠ .osError) (hbase : last ≤ now)
    (hpos : ∀ rc out, p = .ok rc out → ∀ n : ℤ, extractIdleNs out = some (.ok n) → 0 ≤ n) :
    ∃ v : ℚ, getIdleTime p q now last = .ok v ∧ 0 ≤ v := by
  have hfb : idleFallback q now last = .ok (now - last) := by
    cases q with
    | osError => exact absurd rfl hq
    | ok rc out => rfl
    | timeoutExpired => rfl
    | processError => rfl
  cases p with
  | osError => exact absurd rfl hp
  | timeoutExpired => exact ⟨now - last, hfb, by linarith⟩
  | processError => exact ⟨now - last, hfb, by linarith⟩
  | ok rc out =>
    simp only [getIdleTime]
    by_cases hrc : rc = 0
    · rw [if_pos hrc]
      rcases hext : extractIdleNs out with _ | exc
      · exact ⟨now - last, rfl, by linarith⟩
      · cases exc with
        | error e => exact ⟨now - last, hfb, by linarith⟩
        | ok n =>
          refine ⟨(n : ℚ) / 1000000000, rfl, ?_⟩
          have hn : 0 ≤ n := hpos rc out rfl n hext
          have : (0 : ℚ) ≤ (n : ℚ) := by exact_mod_cast hn
          positivity
    · rw [if_neg hrc]
      exact ⟨now - last, rfl, by linarith⟩

/-- Witness for C2 (amended) on a successful probe reporting 7 seconds. -/
theorem idle_time_no_raise_nonneg_witness :
    ∃ v : ℚ, getIdleTime (.ok 0 ("\"HIDIdleTime\" = 7000000000".toList)) .timeoutExpired 10 3
      = .ok v ∧ 0 ≤ v := by
  refine idle_time_no_raise_nonneg _ _ 10 3 (fun h => ProbeResult.noConfusion h)
    (fun h => ProbeResult.noConfusion h) (by norm_num) ?_
  intro rc out h n hext
  injection h with h1 h2
  subst h2
  have hval : extractIdleNs ("\"HIDIdleTime\" = 7000000000".toList)
      = some (.ok 7000000000) := rfl
  rw [hval] at hext
  injection hext with h3
  injection h3 with h4
  omega

/-! ## Character-level lemmas for `pyStrip`/`pyLower` normalization -/

/-- `Char.ofNat` of a small scalar recovers its code point. -/
theorem toNat_ofNat_valid (n : ℕ) (h : n < 55296) : (Char.ofNat n).toNat = n := by
  rw [Char.ofNat, dif_pos (Or.inl h)]
  rfl

/-- Code point of `Char.toLower`: shifted by 32 on `A`–`Z`, unchanged otherwise. -/
theorem toNat_toLower (c : Char) :
    (Char.toLower c).toNat = if 65 ≤ c.toNat ∧ c.toNat ≤ 90 then c.toNat + 32 else c.toNat := by
  simp only [Char.toLower]
  split
  · next h => exact toNat_ofNat_valid _ (by omega)
  · rfl

/-- ASCII lowercasing is idempotent. -/
theorem toLower_toLower (c : Char) : c.toLower.toLower = c.toLower := by
  simp only [Char.toLower]
  by_cases h : 65 ≤ c.toNat ∧ c.toNat ≤ 90
  · rw [if_pos h]
    have hv : (Char.ofNat (c.toNat + 32)).toNat = c.toNat + 32 :=
      toNat_ofNat_valid _ (by omega)
    rw [if_neg (by rw [hv]; omega)]
  · rw [if_neg h, if_neg h]

/-- Lowercasing does not change whether a character is Python whitespace. -/
theorem isPySpace_toLower (c : Char) : isPySpace c.toLower = isPySpace c := by
  have span : ∀ m : ℕ, 33 ≤ m →
      (decide (m = 32) || decide (m = 9) || decide (m = 10) || decide (m = 13)
        || decide (m = 11) || decide (m = 12)) = false := by
    intro m hm
    simp only [Bool.or_eq_false_iff, decide_eq_false_iff_not]
    omega
  simp only [isPySpace, toNat_toLower]
  by_cases h : 65 ≤ c.toNat ∧ c.toNat ≤ 90
  · rw [if_pos h, span (c.toNat + 32) (by omega), span c.toNat (by omega)]
  · rw [if_neg h]

/-- Head of a non-empty left factor determines the head of an append. -/
theorem head?_append_left {α : Type} (l₁ l₂ : List α) (h : l₁ ≠ []) :
    (l₁ ++ l₂).head? = l₁.head? := by
  cases l₁ with
  | nil => exact absurd rfl h
  | cons a t => rfl

/-- `dropWhileP` is idempotent. -/
theorem dropWhileP_idem (p : Char → Bool) (l : List Char) :
    dropWhileP p (dropWhileP p l) = dropWhileP p l := by
  induction l with
  | nil => rfl
  | cons c t ih =>
    by_cases hc : p c = true
    · rw [dropWhileP, if_pos hc, ih]
    · rw [dropWhileP, if_neg hc, dropWhileP, if_neg hc]

/-- The head surviving `dropWhileP` fails the predicate. -/
theorem dropWhileP_head? (p : Char → Bool) (l : List Char) :
    ∀ c, (dropWhileP p l).head? = some c → p c = false := by
  induction l with
  | nil => intro c hc; cases hc
  | cons a t ih =>
    intro c hc
    by_cases ha : p a = true
    · rw [dropWhileP, if_pos ha] at hc
      exact ih c hc
    · rw [dropWhileP, if_neg ha] at hc
      injection hc with h2
      subst h2
      exact Bool.eq_false_iff.mpr ha

/-- `dropWhileP` keeps the last element (seen through `reverse.head?`), or
empties the list. -/
theorem dropWhileP_rev_head? (p : Char → Bool) (l : List Char) :
    dropWhileP p l = [] ∨ (dropWhileP p l).reverse.head? = l.reverse.head? := by
  induction l with
  | nil => exact Or.inl rfl
  | cons c t ih =>
    by_cases hc : p c = true
    · rw [dropWhileP, if_pos hc]
      cases t with
      | nil => exact Or.inl rfl
      | cons b bs =>
        rcases ih with h0 | h1
        · exact Or.inl h0
        · refine Or.inr ?_
          rw [h1]
          have hne : (b :: bs).reverse ≠ [] := by simp
          rw [show (c :: b :: bs).reverse = (b :: bs).reverse ++ [c] by simp,
            head?_append_left _ _ hne]
    · rw [dropWhileP, if_neg hc]
      exact Or.inr rfl

/-- A list whose head fails the predicate is untouched by `dropWhileP`. -/
theorem dropWhileP_eq_self_of_head (p : Char → Bool) (l : List Char)
    (h : ∀ c, l.head? = some c → p c = false) : dropWhileP p l = l := by
  cases l with
  | nil => rfl
  | cons c t =>
    rw [dropWhileP, if_neg (by rw [h c rfl]; simp)]

/-- `dropWhileP` commutes with `map` by composing the predicate. -/
theorem dropWhileP_map (p : Char → Bool) (f : Char → Char) (l : List Char) :
    dropWhileP p (l.map f) = (dropWhileP (fun c => p (f c)) l).map f := by
  induction l with
  | nil => rfl
  | cons c t ih =>
    by_cases hc : p (f c) = true
    · rw [List.map_cons, dropWhileP, if_pos hc, dropWhileP, if_pos hc, ih]
    · rw [List.map_cons, dropWhileP, if_neg hc, dropWhileP, if_neg hc, List.map_cons]

/-- Stripping a stripped list changes nothing. -/
theorem pyStrip_idem (cs : List Char) : pyStrip (pyStrip cs) = pyStrip cs := by
  have key : dropWhileP isPySpace (pyStrip cs) = pyStrip cs := by
    rcases hB : dropWhileP isPySpace ((dropWhileP isPySpace cs).reverse) with _ | ⟨b, bs⟩
    · have hps : pyStrip cs = [] := by
        show (dropWhileP isPySpace ((dropWhileP isPySpace cs).reverse)).reverse = []
        rw [hB]
        rfl
      rw [hps]
      rfl
    · apply dropWhileP_eq_self_of_head
      intro c hc
      rw [show pyStrip cs
          = (dropWhileP isPySpace ((dropWhileP isPySpace cs).reverse)).reverse from rfl] at hc
      rcases dropWhileP_rev_head? isPySpace (dropWhileP isPySpace cs).reverse with h0 | h1
      · rw [h0] at hB; cases hB
      · rw [h1, List.reverse_reverse] at hc
        exact dropWhileP_head? isPySpace cs c hc
  show (dropWhileP isPySpace ((dropWhileP isPySpace (pyStrip cs)).reverse)).reverse = pyStrip cs
  rw [key,
    show (pyStrip cs).reverse
      = dropWhileP isPySpace ((dropWhileP isPySpace cs).reverse) from List.reverse_reverse _,
    dropWhileP_idem]
  rfl

/-- Lowercasing twice equals lowercasing once. -/
theorem pyLower_idem (l : List Char) : pyLower (pyLower l) = pyLower l := by
  simp only [pyLower, List.map_map]
  congr 1
  funext c
  exact toLower_toLower c

/-- Stripping commutes with lowercasing. -/
theorem pyStrip_pyLower (l : List Char) : pyStrip (pyLower l) = pyLower (pyStrip l) := by
  have hdw : ∀ m : List Char,
      dropWhileP isPySpace (pyLower m) = pyLower (dropWhileP isPySpace m) := by
    intro m
    rw [pyLower, dropWhileP_map]
    have : (fun c => isPySpace (Char.toLower c)) = isPySpace := funext isPySpace_toLower
    rw [this]
    rfl
  show (dropWhileP isPySpace ((dropWhileP isPySpace (pyLower l)).reverse)).reverse
    = pyLower (pyStrip l)
  rw [hdw, show (pyLower (dropWhileP isPySpace l)).reverse
      = pyLower ((dropWhileP isPySpace l).reverse) by simp [pyLower, List.map_reverse],
    hdw]
  simp [pyLower, pyStrip, List.map_reverse]

/-- The normalization `strip` then `lower` is idempotent. -/
theorem norm_idem (cs : List Char) :
    pyLower (pyStrip (pyLower (pyStrip cs))) = pyLower (pyStrip cs) := by
  rw [pyStrip_pyLower, pyLower_idem, pyStrip_idem]

/-! ## Claims about `validate_key_combination` -/

/-- Every key of the `key_mappings` dictionary is already listed among the
valid modifiers, function keys or special keys of the validation loop. -/
theorem mapDomain_in_lists :
    keyMappings.all (fun q => validModifiers.contains q.1 || validFunctionKeys.contains q.1
      || validSpecialKeys.contains q.1) = true := by decide

/-- On components already in `strip`/`lower` normal form (as produced by the
validation loop), the loop body agrees with the claim's recognized-component
predicate: the `_map_key_name` fallback accepts nothing new, because the
mapping's domain is contained in the three lists. -/
theorem componentValid_eq_claimed (raw : List Char) :
    componentValid (pyLower (pyStrip raw)) = claimedComponentOk raw := by
  have hk : pyLower (pyStrip (pyLower (pyStrip raw))) = pyLower (pyStrip raw) := norm_idem raw
  simp only [componentValid, claimedComponentOk]
  by_cases h1 : singleCharValid (pyLower (pyStrip raw)) = true
  · rw [if_pos h1, h1]
    simp
  · have h1' : singleCharValid (pyLower (pyStrip raw)) = false := Bool.eq_false_iff.mpr h1
    rw [if_neg h1, h1']
    simp only [Bool.false_or]
    rcases ha : validModifiers.contains (pyLower (pyStrip raw)) with _ | _
    · rcases hb : validFunctionKeys.contains (pyLower (pyStrip raw)) with _ | _
      · rcases hc : validSpecialKeys.contains (pyLower (pyStrip raw)) with _ | _
        · rw [if_pos (by decide)]
          have hmap : mapKeyName (pyLower (pyStrip raw)) = pyLower (pyStrip raw) := by
            simp only [mapKeyName, hk]
            rcases hl : keyMappings.lookup (pyLower (pyStrip raw)) with _ | v
            · rfl
            · exfalso
              have hmem := lookup_mem_pair keyMappings _ _ hl
              have hall := List.all_eq_true.mp mapDomain_in_lists _ hmem
              rw [ha, hb, hc] at hall
              simp at hall
          rw [hmap]
          simp
        · rw [if_neg (by simp)]
          simp
      · rw [if_neg (by simp)]
        simp
    · rw [if_neg (by simp)]
      simp

/-- Counterexample to claim C3: the bare modifier token `shift` — every one of
its components is a recognized modifier name — is rejected, while the
unrecognized single token `fnord` is accepted (the single-key branch accepts
any multi-character name starting with `f`). -/
theorem validate_single_token_mismatch :
    validateKeyCombination ("shift".toList) = false ∧
    validateKeyCombination ("fnord".toList) = true :=
  ⟨by decide, by decide⟩

/-- Claim C3 as amended: for tokens containing `+`, validation succeeds exactly
when every stripped, lowercased component is a single alphanumeric or
punctuation character or a recognized modifier / function key / named key; the
claim's two examples hold; but for tokens without `+` the code follows a
different rule — a multi-character name passes iff the key map renames it, it
is one of the plain named keys, or it starts with `f` — so the bare modifiers
the map leaves unchanged (`ctrl`, `alt`, `shift`, `command`, `winleft`,
`winright`) are rejected, the renamed ones (`control`, `option`, `cmd`, `win`,
`windows`) are accepted, and any unrecognized name starting with `f` such as
`fnord` is accepted. -/
theorem validate_key_combination_amended :
    (∀ kc : List Char, kc.contains '+' = true →
      (validateKeyCombination kc = true ↔
        ∀ raw ∈ splitOnChar '+' kc, claimedComponentOk raw = true)) ∧
    validateKeyCombination ("shift+cmd+ctrl+right".toList) = true ∧
    validateKeyCombination ("ctrl+bogus_key_xyz".toList) = false ∧
    validateKeyCombination ("shift".toList) = false ∧
    validateKeyCombination ("ctrl".toList) = false ∧
    validateKeyCombination ("command".toList) = false ∧
    validateKeyCombination ("control".toList) = true ∧
    validateKeyCombination ("cmd".toList) = true ∧
    validateKeyCombination ("fnord".toList) = true := by
  refine ⟨?_, by decide, by decide, by decide, by decide, by decide, by decide, by decide,
    by decide⟩
  intro kc hplus
  rw [validateKeyCombination, if_pos hplus]
  constructor
  · intro h raw hraw
    rw [← componentValid_eq_claimed]
    exact List.all_eq_true.mp h _ (List.mem_map_of_mem _ hraw)
  · intro h
    apply List.all_eq_true.mpr
    intro x hx
    rcases List.mem_map.mp hx with ⟨raw, hraw, rfl⟩
    rw [componentValid_eq_claimed]
    exact h raw hraw

/-- Witness for C3 (amended) on the concrete token `ctrl+s`. -/
theorem validate_key_combination_amended_witness :
    validateKeyCombination ("ctrl+s".toList) = true ↔
      ∀ raw ∈ splitOnChar '+' ("ctrl+s".toList), claimedComponentOk raw = true :=
  validate_key_combination_amended.1 ("ctrl+s".toList) (by decide)

end MM
